import Mathlib

/-!
Shallow embedding of the analysis core of a static CI-workflow security
auditor: the known-vulnerable-actions audit (version resolution against a
remote advisory source, severity mapping, the per-workflow audit pass and
its construction preconditions) and the Locator that concretizes
structural finding locations into source-text spans.

Remote calls are modelled by an explicit Client record of oracle
functions; every embedded operation additionally returns the ordered list
of remote calls it issued, so that absence of a network call is provable.
-/

/-- Severity of a finding. Four levels, per the finding model. -/
inductive Severity where
  | Unknown
  | Low
  | Medium
  | High
deriving DecidableEq, Repr

/-- Confidence of a finding. -/
inductive Confidence where
  | Low
  | Medium
  | High
deriving DecidableEq, Repr

/-- Remote tag record: a name and the commit it points to. -/
structure Tag where
  name : String
  sha : String
deriving DecidableEq, Repr

/-- Remote advisory record: a source severity string and an identifier. -/
structure Advisory where
  severity : String
  ghsa_id : String
deriving DecidableEq, Repr

/-- Modelled from the spec: a parsed action reference of shape
owner/repo with an optional git ref. The concrete parsing lives in the
models module, which is not part of the audited sources. -/
structure Uses where
  owner : String
  repo : String
  git_ref : Option String
deriving DecidableEq, Repr

/-- Identifier of one remote API call, with its arguments. -/
inductive ApiCall where
  | commitForRef (owner repo ref : String)
  | longestTagForCommit (owner repo commit : String)
  | ghaAdvisories (owner repo version : String)
deriving DecidableEq, Repr

/-- Remote API client, as a record of oracle functions. Each call may fail
with a transport error. -/
structure Client where
  commitForRef : String → String → String → Except String (Option String)
  longestTagForCommit : String → String → String → Except String (Option Tag)
  ghaAdvisories : String → String → String → Except String (List Advisory)

/-- Modelled from the spec: a hexadecimal digit test, used to recognize
exact commit identifiers. -/
def isHexDigit (c : Char) : Bool :=
  c.isDigit || (97 ≤ c.toNat && c.toNat ≤ 102) || (65 ≤ c.toNat && c.toNat ≤ 70)

/-- Modelled from the spec: the ref, if present, is an exact commit
identifier when it is a fixed-length (40-character) hexadecimal string;
otherwise it is a symbolic name. The concrete test lives in the models
module, which is not part of the audited sources. -/
def refIsCommit (u : Uses) : Bool :=
  match u.git_ref with
  | some r => r.length == 40 && r.toList.all isHexDigit
  | none => false

/-- Severity mapping applied to each advisory source severity string,
embedded from the match in action_known_vulnerabilities. -/
def severityFromStr (s : String) : Severity :=
  if s = "low" then Severity.Unknown
  else if s = "medium" then Severity.Medium
  else if s = "high" then Severity.High
  else if s = "critical" then Severity.High
  else Severity.Unknown

/-- The advisory loop of action_known_vulnerabilities: one
(mapped severity, advisory id) pair pushed per advisory, in order. -/
def vulnsToResults : List Advisory → List (Severity × String)
  | [] => []
  | v :: rest => (severityFromStr v.severity, v.ghsa_id) :: vulnsToResults rest

/-- Tail of action_known_vulnerabilities once a version string is
determined: query the advisory source and map each advisory. -/
def queryAdvisories (c : Client) (owner repo version : String) :
    Except String (List (Severity × String)) :=
  match c.ghaAdvisories owner repo version with
  | Except.error e => Except.error e
  | Except.ok vulns => Except.ok (vulnsToResults vulns)

/-- Embedding of KnownVulnerableActions.action_known_vulnerabilities.
The second component records the remote calls issued, in order. -/
def actionKnownVulnerabilities (c : Client) (u : Uses) :
    Except String (List (Severity × String)) × List ApiCall :=
  match u.git_ref with
  | none => (Except.ok [], [])
  | some version =>
    if refIsCommit u then
      match c.longestTagForCommit u.owner u.repo version with
      | Except.error e => (Except.error e, [ApiCall.longestTagForCommit u.owner u.repo version])
      | Except.ok none => (Except.ok [], [ApiCall.longestTagForCommit u.owner u.repo version])
      | Except.ok (some tag) =>
        (queryAdvisories c u.owner u.repo tag.name,
         [ApiCall.longestTagForCommit u.owner u.repo version,
          ApiCall.ghaAdvisories u.owner u.repo tag.name])
    else
      match c.commitForRef u.owner u.repo version with
      | Except.error e => (Except.error e, [ApiCall.commitForRef u.owner u.repo version])
      | Except.ok none => (Except.ok [], [ApiCall.commitForRef u.owner u.repo version])
      | Except.ok (some commitRef) =>
        match c.longestTagForCommit u.owner u.repo commitRef with
        | Except.error e =>
          (Except.error e,
           [ApiCall.commitForRef u.owner u.repo version,
            ApiCall.longestTagForCommit u.owner u.repo commitRef])
        | Except.ok tagOpt =>
          let v := match tagOpt with
            | some tag => tag.name
            | none => version
          (queryAdvisories c u.owner u.repo v,
           [ApiCall.commitForRef u.owner u.repo version,
            ApiCall.longestTagForCommit u.owner u.repo commitRef,
            ApiCall.ghaAdvisories u.owner u.repo v])

/-- Modelled from the spec: split a character list at the first occurrence
of a separator character. -/
def splitFirst (sep : Char) : List Char → Option (List Char × List Char)
  | [] => none
  | c :: rest =>
    if c = sep then some ([], rest)
    else (splitFirst sep rest).map (fun p => (c :: p.1, p.2))

/-- Modelled from the spec: parsing of a uses string of the shape
owner/repo with an optional at-sign ref and an ignored path qualifier.
The concrete parser lives in the models module, which is not part of the
audited sources; malformed shapes yield none and are skipped. -/
def usesFromStep (s : String) : Option Uses :=
  let cs := s.toList
  let base : List Char := match splitFirst '@' cs with
    | some p => p.1
    | none => cs
  let gref : Option String := match splitFirst '@' cs with
    | some p => some (String.mk p.2)
    | none => none
  match splitFirst '/' base with
  | none => none
  | some p =>
    let owner := p.1
    let repo := match splitFirst '/' p.2 with
      | some q => q.1
      | none => p.2
    if owner.isEmpty || repo.isEmpty then none
    else some { owner := String.mk owner, repo := String.mk repo, git_ref := gref }

/-- Modelled from the spec: a step body is one variant of a step, either an
action invocation carrying a uses string or another kind of body. -/
inductive StepBody where
  | usesBody (s : String)
  | runBody (s : String)
deriving DecidableEq, Repr

/-- Modelled from the spec: a workflow step. -/
structure Step where
  body : StepBody
deriving DecidableEq, Repr

/-- Modelled from the spec: a job is either a normal job or a
reusable-workflow-call job (skipped by this audit). -/
inductive JobKind where
  | normal
  | reusable
deriving DecidableEq, Repr

/-- Modelled from the spec: a job has an identifier and an ordered list of
steps in document order. -/
structure Job where
  id : String
  kind : JobKind
  steps : List Step
deriving DecidableEq, Repr

/-- Syntax-tree node over the raw document, mirroring the node shapes the
Locator queries touch: scalars, block mappings (whose children are
key-value pair nodes), block sequences (whose children are the item
nodes), and mapping-pair nodes. Every node carries its byte span. -/
inductive STNode where
  | scalar (start stop : Nat)
  | mapping (start stop : Nat) (pairs : List STNode)
  | sequence (start stop : Nat) (items : List STNode)
  | pair (start stop : Nat) (key value : STNode)

/-- Start offset of a node's span. -/
def nodeStart : STNode → Nat
  | STNode.scalar s _ => s
  | STNode.mapping s _ _ => s
  | STNode.sequence s _ _ => s
  | STNode.pair s _ _ _ => s

/-- Stop offset of a node's span. -/
def nodeStop : STNode → Nat
  | STNode.scalar _ e => e
  | STNode.mapping _ e _ => e
  | STNode.sequence _ e _ => e
  | STNode.pair _ e _ _ => e

/-- Direct children of a node, in document order, with no filtering. -/
def STNode.children : STNode → List STNode
  | STNode.scalar _ _ => []
  | STNode.mapping _ _ ps => ps
  | STNode.sequence _ _ items => items
  | STNode.pair _ _ k v => [k, v]

/-- Source text of a node: the contiguous slice of the raw document
covered by the node's span. -/
def utf8Text (raw : List Char) (n : STNode) : List Char :=
  (raw.drop (nodeStart n)).take (nodeStop n - nodeStart n)

/-- Workflow: raw source text, the parsed syntax tree over that text, and
the structural model of jobs in document order. -/
structure Workflow where
  raw : List Char
  tree : STNode
  jobs : List Job

/-- Structural step reference: an index into the job's step list in
document order. -/
structure StepLocation where
  index : Nat
deriving DecidableEq, Repr

/-- Structural job reference: a job id and optionally a step within it. -/
structure JobLocation where
  id : String
  step : Option StepLocation
deriving DecidableEq, Repr

/-- Structural location attached to a finding: optionally a job (with an
optional step), the keys the finding is attached to, and an optional
free-text annotation. -/
structure WorkflowLocation where
  job : Option JobLocation
  keys : List String
  annot : Option String
deriving DecidableEq, Repr

/-- Location of a step, as produced during the audit pass. -/
def stepLocation (jobId : String) (idx : Nat) : WorkflowLocation :=
  { job := some { id := jobId, step := some { index := idx } }, keys := [], annot := none }

/-- Attach keys to a location. -/
def withKeys (l : WorkflowLocation) (ks : List String) : WorkflowLocation :=
  { l with keys := ks }

/-- Attach an annotation to a location. -/
def annotated (l : WorkflowLocation) (a : String) : WorkflowLocation :=
  { l with annot := some a }

/-- Finding value: audit identity, confidence, severity and locations. -/
structure Finding where
  ident : String
  confidence : Confidence
  severity : Severity
  locations : List WorkflowLocation
deriving DecidableEq, Repr

/-- Audit configuration: offline flag and optional API token. -/
structure AuditConfig where
  offline : Bool
  gh_token : Option String

/-- The constructed audit state: its configuration and API client. -/
structure KVA where
  config : AuditConfig
  client : Client

/-- Embedding of KnownVulnerableActions.new: construction fails when
offline mode is requested or when no API token is provided. -/
def newKVA (config : AuditConfig) (mkClientOfToken : String → Client) : Except String KVA :=
  if config.offline then Except.error "offline audits only requested"
  else
    match config.gh_token with
    | none => Except.error "cannot audit without a GitHub API token"
    | some tok => Except.ok { config := config, client := mkClientOfToken tok }

/-- Body of the audit loop for one step: non-uses steps and unparsable
uses strings are skipped; otherwise one finding is built per
(severity, advisory id) pair, attached to the uses key of the step. -/
def auditStep (c : Client) (jobId : String) (idx : Nat) (st : Step) :
    Except String (List Finding) × List ApiCall :=
  match st.body with
  | StepBody.usesBody u =>
    match usesFromStep u with
    | none => (Except.ok [], [])
    | some uses =>
      match actionKnownVulnerabilities c uses with
      | (Except.error e, log) => (Except.error e, log)
      | (Except.ok pairs, log) =>
        (Except.ok (pairs.map (fun p =>
          { ident := "known-vulnerable-actions"
            confidence := Confidence.High
            severity := p.1
            locations := [annotated (withKeys (stepLocation jobId idx) ["uses"]) p.2] })), log)
  | _ => (Except.ok [], [])

/-- The audit loop over the steps of one job, in document order, starting
at step index idx. An error from any step aborts the loop. -/
def auditSteps (c : Client) (jobId : String) : Nat → List Step →
    Except String (List Finding) × List ApiCall
  | _, [] => (Except.ok [], [])
  | idx, st :: rest =>
    match auditStep c jobId idx st with
    | (Except.error e, log) => (Except.error e, log)
    | (Except.ok fs, log) =>
      match auditSteps c jobId (idx + 1) rest with
      | (Except.error e, log2) => (Except.error e, log ++ log2)
      | (Except.ok fs2, log2) => (Except.ok (fs ++ fs2), log ++ log2)

/-- The audit loop over jobs: non-normal jobs are skipped; an error from
any step of any job aborts the whole pass. -/
def auditJobs (c : Client) : List Job → Except String (List Finding) × List ApiCall
  | [] => (Except.ok [], [])
  | j :: rest =>
    match j.kind with
    | JobKind.reusable => auditJobs c rest
    | JobKind.normal =>
      match auditSteps c j.id 0 j.steps with
      | (Except.error e, log) => (Except.error e, log)
      | (Except.ok fs, log) =>
        match auditJobs c rest with
        | (Except.error e, log2) => (Except.error e, log ++ log2)
        | (Except.ok fs2, log2) => (Except.ok (fs ++ fs2), log ++ log2)

/-- Embedding of KnownVulnerableActions.audit: one pass over the
workflow's jobs, returning all findings or the first error. -/
def audit (c : Client) (wf : Workflow) : Except String (List Finding) × List ApiCall :=
  auditJobs c wf.jobs

/-- Modelled from the spec: a query key test compares the source text of a
key node, extracted from the raw document, against a literal name. -/
def keyIs (raw : List Char) (k : STNode) (name : String) : Bool :=
  utf8Text raw k == name.toList

/-- Modelled from the spec: the captures contributed by one job mapping
pair for the steps query: when the pair key matches the job id and its
value is a mapping, every pair therein whose key is steps and whose value
is a sequence captures that sequence node. -/
def stepsCapturesOfJobPair (raw : List Char) (jobId : String) (jp : STNode) : List STNode :=
  match jp with
  | STNode.pair _ _ k v =>
    if keyIs raw k jobId then
      match v with
      | STNode.mapping _ _ stepPairs =>
        stepPairs.flatMap (fun sp =>
          match sp with
          | STNode.pair _ _ sk sv =>
            if keyIs raw sk "steps" then
              match sv with
              | STNode.sequence _ _ _ => [sv]
              | _ => []
            else []
          | _ => [])
      | _ => []
    else []
  | _ => []

/-- Modelled from the spec: execution of the all-steps-from-job pattern
query. It walks the top-level jobs mapping and returns, in document
order, every captured steps sequence node for the given job id. The
query engine is an external collaborator; this follows the two
operations the spec names, finding the value node for a named key in a
mapping and listing the direct children of a sequence node. -/
def stepsQueryCaptures (raw : List Char) (root : STNode) (jobId : String) : List STNode :=
  match root with
  | STNode.mapping _ _ pairs =>
    pairs.flatMap (fun p =>
      match p with
      | STNode.pair _ _ k v =>
        if keyIs raw k "jobs" then
          match v with
          | STNode.mapping _ _ jobPairs => jobPairs.flatMap (stepsCapturesOfJobPair raw jobId)
          | _ => []
        else []
      | _ => [])
  | _ => []

/-- Modelled from the spec: the capture contributed by one job mapping
pair for the entire-job query: the whole pair node when the key matches
the job id and its value is a mapping. -/
def jobCaptureOfPair (raw : List Char) (jobId : String) (jp : STNode) : List STNode :=
  match jp with
  | STNode.pair _ _ k v =>
    if keyIs raw k jobId then
      match v with
      | STNode.mapping _ _ _ => [jp]
      | _ => []
    else []
  | _ => []

/-- Modelled from the spec: execution of the entire-job pattern query,
returning in document order every captured full-job pair node for the
given job id inside the top-level jobs mapping. -/
def entireJobCaptures (raw : List Char) (root : STNode) (jobId : String) : List STNode :=
  match root with
  | STNode.mapping _ _ pairs =>
    pairs.flatMap (fun p =>
      match p with
      | STNode.pair _ _ k v =>
        if keyIs raw k "jobs" then
          match v with
          | STNode.mapping _ _ jobPairs => jobPairs.flatMap (jobCaptureOfPair raw jobId)
          | _ => []
        else []
      | _ => [])
  | _ => []

/-- Concretized feature: the span of the located node and its literal
source text. -/
structure Feature where
  start : Nat
  stop : Nat
  feature : List Char
deriving DecidableEq, Repr

/-- Outcome of concretization: an ok feature, a recoverable error result,
or an unrecoverable process fault (a crash). The embedded code never
produces err because the two queries are well-formed constants and text
extraction is total; the constructor mirrors the fallible result type. -/
inductive LOutcome (α : Type) where
  | ok (a : α)
  | err (e : String)
  | fault (msg : String)
deriving DecidableEq, Repr

/-- Embedding of Locator.concretize. The step case takes the first steps
query capture (a missing capture is a crash), materializes the direct
children of the captured sequence node with no filtering, and indexes
that list with the step index (out of range is a crash). The job-only
case takes the first entire-job capture. The no-job case is unfinished
in the source and crashes. -/
def concretize (wf : Workflow) (location : WorkflowLocation) : LOutcome Feature :=
  match location.job with
  | some job =>
    match job.step with
    | some step =>
      match stepsQueryCaptures wf.raw wf.tree job.id with
      | [] => LOutcome.fault "horrific, embarassing tree-sitter query failure"
      | capNode :: _ =>
        match (STNode.children capNode).get? step.index with
        | none => LOutcome.fault "index out of bounds"
        | some stepNode =>
          LOutcome.ok
            { start := nodeStart stepNode
              stop := nodeStop stepNode
              feature := utf8Text wf.raw stepNode }
    | none =>
      match entireJobCaptures wf.raw wf.tree job.id with
      | [] => LOutcome.fault "horrific, embarassing tree-sitter query failure"
      | capNode :: _ =>
        LOutcome.ok
          { start := nodeStart capNode
            stop := nodeStop capNode
            feature := utf8Text wf.raw capNode }
  | none => LOutcome.fault "not yet implemented"

/-- Modelled from the spec: remote tag lookup selects, among the tags
pointing at the requested commit, one with the longest name (tie-break
is unspecified upstream; this model keeps the later of two equal-length
names). The lookup lives in the remote API module, which is not part of
the audited sources. -/
def longestTagForCommitImpl (tags : List Tag) (commit : String) : Option Tag :=
  match tags with
  | [] => none
  | t :: rest =>
    match longestTagForCommitImpl rest commit with
    | none => if t.sha = commit then some t else none
    | some best =>
      if t.sha = commit && best.name.length < t.name.length then some t else some best

/-- Modelled from the spec: a client whose three endpoints answer from
pure databases and never fail with a transport error. -/
def mkClient (refs : String → String → String → Option String)
    (tagdb : String → String → List Tag)
    (advs : String → String → String → List Advisory) : Client :=
  { commitForRef := fun o r rf => Except.ok (refs o r rf)
    longestTagForCommit := fun o r c => Except.ok (longestTagForCommitImpl (tagdb o r) c)
    ghaAdvisories := fun o r v => Except.ok (advs o r v) }

/-- Version string chosen for a resolved commit: the longest tag name
pointing at the commit, or the original symbolic ref when none does. -/
def chosenVersion (tags : List Tag) (commit : String) (orig : String) : String :=
  match longestTagForCommitImpl tags commit with
  | some t => t.name
  | none => orig

/-- Longest-tag choice specification: the chosen version is the name of a
tag of the commit whose name is at least as long as that of every other
tag of the commit, or, when no tag points at the commit, the original
symbolic ref verbatim. -/
def LongestTagChoice (tags : List Tag) (commit orig v : String) : Prop :=
  (∃ t, t ∈ tags ∧ t.sha = commit ∧ t.name = v ∧
    ∀ t', t' ∈ tags → t'.sha = commit → t'.name.length ≤ t.name.length)
  ∨ ((∀ t, t ∈ tags → t.sha ≠ commit) ∧ v = orig)

/-- Success test for a fallible result. -/
def resIsOk {α : Type} : Except String α → Bool
  | Except.ok _ => true
  | Except.error _ => false

/-- All steps of a list, starting at index idx, audit without error. -/
def stepsAllOk (c : Client) (jobId : String) : Nat → List Step → Bool
  | _, [] => true
  | idx, st :: rest =>
    resIsOk (auditStep c jobId idx st).1 && stepsAllOk c jobId (idx + 1) rest

/-- One job audits without error (non-normal jobs are skipped). -/
def jobOk (c : Client) (j : Job) : Bool :=
  match j.kind with
  | JobKind.reusable => true
  | JobKind.normal => resIsOk (auditSteps c j.id 0 j.steps).1

/-- All jobs of a list audit without error. -/
def jobsAllOk (c : Client) (js : List Job) : Bool :=
  js.all (jobOk c)

/-- Client for the end-to-end scenario: the symbolic ref v3 of
actions/checkout resolves to commit c3, tagged v3, and that version
carries exactly one advisory of source severity high. -/
def clientC1 : Client :=
  { commitForRef := fun owner repo r =>
      if owner = "actions" ∧ repo = "checkout" ∧ r = "v3" then Except.ok (some "c3")
      else Except.ok none
    longestTagForCommit := fun owner repo c =>
      if owner = "actions" ∧ repo = "checkout" ∧ c = "c3" then
        Except.ok (some { name := "v3", sha := "c3" })
      else Except.ok none
    ghaAdvisories := fun owner repo v =>
      if owner = "actions" ∧ repo = "checkout" ∧ v = "v3" then
        Except.ok [{ severity := "high", ghsa_id := "GHSA-xxxx" }]
      else Except.ok [] }

/-- Workflow for the end-to-end scenario: one normal job test with two
steps, the second of which uses actions/checkout at v3. -/
def wfC1 : Workflow :=
  { raw := []
    tree := STNode.scalar 0 0
    jobs := [{ id := "test"
               kind := JobKind.normal
               steps := [{ body := StepBody.runBody "make" },
                         { body := StepBody.usesBody "actions/checkout@v3" }] }] }

/-- First step of the error-propagation scenario: its advisory lookup
succeeds and produces one finding. -/
def stepGood : Step := { body := StepBody.usesBody "good/act@v1" }

/-- Second step of the error-propagation scenario: its advisory lookup
fails with a transport error. -/
def stepBad : Step := { body := StepBody.usesBody "bad/act@v1" }

/-- Job holding the two steps of the error-propagation scenario. -/
def jobC6 : Job := { id := "test", kind := JobKind.normal, steps := [stepGood, stepBad] }

/-- Client for the error-propagation scenario: every symbolic ref resolves
and is tagged, and the advisory endpoint fails for the owner bad. -/
def clientC6 : Client :=
  { commitForRef := fun _ _ _ => Except.ok (some "c")
    longestTagForCommit := fun _ _ _ => Except.ok (some { name := "v1.0.0", sha := "c" })
    ghaAdvisories := fun owner _ _ =>
      if owner = "bad" then Except.error "transport failure"
      else Except.ok [{ severity := "high", ghsa_id := "GHSA-good" }] }

/-- Workflow for the error-propagation scenario. -/
def wfC6 : Workflow := { raw := [], tree := STNode.scalar 0 0, jobs := [jobC6] }

/-- Ref database for the longest-tag scenario: the symbolic ref v2
resolves to commit c0. -/
def refsW : String → String → String → Option String :=
  fun _ _ r => if r = "v2" then some "c0" else none

/-- Tag database for the longest-tag scenario: both v2 and v2.0.1 point
at commit c0. -/
def tagdbW : String → String → List Tag :=
  fun _ _ => [{ name := "v2", sha := "c0" }, { name := "v2.0.1", sha := "c0" }]

/-- Advisory database for the longest-tag scenario: only the version
v2.0.1 carries an advisory. -/
def advsW : String → String → String → List Advisory :=
  fun _ _ v => if v = "v2.0.1" then [{ severity := "medium", ghsa_id := "GHSA-w" }] else []

/-- Action reference pinned to the symbolic ref v2. -/
def usesW : Uses := { owner := "o", repo := "r", git_ref := some "v2" }

/-- Action reference with no git ref. -/
def usesNoRef : Uses := { owner := "actions", repo := "checkout", git_ref := none }

/-- Action reference pinned to an exact 40-character commit identifier. -/
def usesSha : Uses :=
  { owner := "actions", repo := "checkout"
    git_ref := some "8f4b7f84864484a7bf31766abe9204da3cbe65b3" }

/-- Client whose tag lookup finds no tag for any commit. -/
def clientNoTags : Client :=
  { commitForRef := fun _ _ _ => Except.ok none
    longestTagForCommit := fun _ _ _ => Except.ok none
    ghaAdvisories := fun _ _ _ => Except.ok [] }

/-- Raw text of a workflow with one job build holding three steps. -/
def rawStr8 : String := "jobs:\n build:\n  steps:\n  - a: b\n  - c: d\n  - e: f\n"

/-- Syntax tree of rawStr8, spans in character offsets. -/
def tree8 : STNode :=
  STNode.mapping 0 49
    [STNode.pair 0 49 (STNode.scalar 0 4)
      (STNode.mapping 7 49
        [STNode.pair 7 49 (STNode.scalar 7 12)
          (STNode.mapping 16 49
            [STNode.pair 16 49 (STNode.scalar 16 21)
              (STNode.sequence 25 49
                [STNode.scalar 25 31, STNode.scalar 34 40, STNode.scalar 43 49])])])]

/-- Workflow over rawStr8 and tree8. -/
def wf8 : Workflow := { raw := rawStr8.toList, tree := tree8, jobs := [] }

/-- Raw text of a workflow whose jobs mapping holds two jobs that share
the id build. -/
def rawStr9 : String := "jobs:\n build:\n  steps:\n  - a: b\n build:\n  steps:\n  - c: d\n"

/-- Syntax tree of rawStr9, spans in character offsets. -/
def tree9 : STNode :=
  STNode.mapping 0 57
    [STNode.pair 0 57 (STNode.scalar 0 4)
      (STNode.mapping 7 57
        [STNode.pair 7 31 (STNode.scalar 7 12)
          (STNode.mapping 16 31
            [STNode.pair 16 31 (STNode.scalar 16 21)
              (STNode.sequence 25 31 [STNode.scalar 25 31])]),
         STNode.pair 33 57 (STNode.scalar 33 38)
          (STNode.mapping 42 57
            [STNode.pair 42 57 (STNode.scalar 42 47)
              (STNode.sequence 51 57 [STNode.scalar 51 57])])])]

/-- Workflow over rawStr9 and tree9. -/
def wf9 : Workflow := { raw := rawStr9.toList, tree := tree9, jobs := [] }

/-- A tag lookup returning none means no tag in the database points at
the commit. -/
theorem longestTagForCommitImpl_none (tags : List Tag) (commit : String)
    (h : longestTagForCommitImpl tags commit = none) :
    ∀ t, t ∈ tags → t.sha ≠ commit := by
  induction tags with
  | nil => intro t ht; cases ht
  | cons a rest ih =>
    intro t ht
    rcases hr : longestTagForCommitImpl rest commit with _ | best
    · simp only [longestTagForCommitImpl, hr] at h
      rcases List.mem_cons.mp ht with h1 | h1
      · subst h1
        intro hsha
        rw [if_pos hsha] at h
        cases h
      · exact ih hr t h1
    · simp only [longestTagForCommitImpl, hr] at h
      split at h <;> cases h

/-- A tag lookup returning a tag returns a tag of the commit whose name
is at least as long as that of every tag of the commit. -/
theorem longestTagForCommitImpl_some (tags : List Tag) (commit : String) (t : Tag)
    (h : longestTagForCommitImpl tags commit = some t) :
    t ∈ tags ∧ t.sha = commit ∧
      ∀ t', t' ∈ tags → t'.sha = commit → t'.name.length ≤ t.name.length := by
  induction tags generalizing t with
  | nil => cases h
  | cons a rest ih =>
    rcases hr : longestTagForCommitImpl rest commit with _ | best
    · simp only [longestTagForCommitImpl, hr] at h
      by_cases hsha : a.sha = commit
      · rw [if_pos hsha] at h
        cases h
        refine ⟨List.mem_cons_self _ _, hsha, ?_⟩
        intro t' ht' hsha'
        rcases List.mem_cons.mp ht' with h1 | h1
        · subst h1; exact le_refl _
        · exact absurd hsha' (longestTagForCommitImpl_none rest commit hr t' h1)
      · rw [if_neg hsha] at h
        cases h
    · simp only [longestTagForCommitImpl, hr] at h
      obtain ⟨hmem, hsha, hbound⟩ := ih best hr
      by_cases hcond : (a.sha = commit && best.name.length < a.name.length) = true
      · rw [if_pos hcond] at h
        cases h
        simp only [Bool.and_eq_true, decide_eq_true_eq] at hcond
        refine ⟨List.mem_cons_self _ _, hcond.1, ?_⟩
        intro t' ht' hsha'
        rcases List.mem_cons.mp ht' with h1 | h1
        · subst h1; exact le_refl _
        · exact le_trans (hbound t' h1 hsha') (le_of_lt hcond.2)
      · rw [if_neg hcond] at h
        cases h
        simp only [Bool.and_eq_true, decide_eq_true_eq, not_and, not_lt] at hcond
        refine ⟨List.mem_cons_of_mem _ hmem, hsha, ?_⟩
        intro t' ht' hsha'
        rcases List.mem_cons.mp ht' with h1 | h1
        · subst h1; exact hcond hsha'
        · exact hbound t' h1 hsha'

/-- C1: for a workflow with exactly one normal job named test whose second
step (document index 1) invokes actions/checkout at v3, where resolution
of v3 yields the single advisory GHSA-xxxx of source severity high, the
audit returns exactly one finding with severity High, confidence High,
location job test step 1 attached to the uses key, annotated GHSA-xxxx. -/
theorem c1_end_to_end :
    (audit clientC1 wfC1).1 =
      Except.ok [{ ident := "known-vulnerable-actions"
                   confidence := Confidence.High
                   severity := Severity.High
                   locations := [{ job := some { id := "test", step := some { index := 1 } }
                                   keys := ["uses"]
                                   annot := some "GHSA-xxxx" }] }] := by
  rfl

/-- C2: for a symbolic (non-commit) ref, resolution first resolves the ref
to a commit; if none exists the result is empty after that single call;
otherwise the advisory source is queried with the chosen version, which
is the longest-named tag pointing at the commit, or the original ref
verbatim when no tag points at it. -/
theorem c2_symbolic_ref_resolution (refs : String → String → String → Option String)
    (tagdb : String → String → List Tag)
    (advs : String → String → String → List Advisory)
    (u : Uses) (r : String)
    (h1 : u.git_ref = some r) (h2 : refIsCommit u = false) :
    (actionKnownVulnerabilities (mkClient refs tagdb advs) u =
      match refs u.owner u.repo r with
      | none => (Except.ok [], [ApiCall.commitForRef u.owner u.repo r])
      | some commit =>
        (Except.ok (vulnsToResults
            (advs u.owner u.repo (chosenVersion (tagdb u.owner u.repo) commit r))),
         [ApiCall.commitForRef u.owner u.repo r,
          ApiCall.longestTagForCommit u.owner u.repo commit,
          ApiCall.ghaAdvisories u.owner u.repo
            (chosenVersion (tagdb u.owner u.repo) commit r)]))
    ∧ ∀ commit, LongestTagChoice (tagdb u.owner u.repo) commit r
        (chosenVersion (tagdb u.owner u.repo) commit r) := by
  constructor
  · obtain ⟨o, re, g⟩ := u
    simp only at h1
    subst h1
    simp only [actionKnownVulnerabilities, h2, Bool.false_eq_true, if_false, mkClient]
    rcases hrefs : refs o re r with _ | commit
    · simp
    · simp only
      rcases hl : longestTagForCommitImpl (tagdb o re) commit with _ | t <;>
        simp [chosenVersion, hl, queryAdvisories]
  · intro commit
    unfold chosenVersion LongestTagChoice
    rcases hl : longestTagForCommitImpl (tagdb u.owner u.repo) commit with _ | t
    · exact Or.inr ⟨longestTagForCommitImpl_none _ _ hl, rfl⟩
    · obtain ⟨hmem, hsha, hbound⟩ := longestTagForCommitImpl_some _ _ _ hl
      exact Or.inl ⟨t, hmem, hsha, rfl, hbound⟩

/-- C2 witness: the symbolic ref v2 resolves to commit c0 carrying the
tags v2 and v2.0.1; the longer name v2.0.1 is chosen and the advisory
source is queried with it. -/
theorem c2_witness :
    actionKnownVulnerabilities (mkClient refsW tagdbW advsW) usesW =
      (Except.ok [(Severity.Medium, "GHSA-w")],
       [ApiCall.commitForRef "o" "r" "v2",
        ApiCall.longestTagForCommit "o" "r" "c0",
        ApiCall.ghaAdvisories "o" "r" "v2.0.1"]) := by
  have h := (c2_symbolic_ref_resolution refsW tagdbW advsW usesW "v2" rfl rfl).1
  exact h.trans (by rfl)

/-- C3: the severity mapping is total and fixed, collapsing low and every
unrecognized string to Unknown, and the advisory loop returns one mapped
pair per advisory in source order. -/
theorem c3_severity_mapping :
    (severityFromStr "low" = Severity.Unknown
      ∧ severityFromStr "medium" = Severity.Medium
      ∧ severityFromStr "high" = Severity.High
      ∧ severityFromStr "critical" = Severity.High)
    ∧ (∀ s : String, severityFromStr s =
        if s = "medium" then Severity.Medium
        else if s = "high" ∨ s = "critical" then Severity.High
        else Severity.Unknown)
    ∧ (∀ vulns : List Advisory,
        vulnsToResults vulns = vulns.map (fun v => (severityFromStr v.severity, v.ghsa_id)))
    ∧ (∀ (c : Client) (owner repo version : String),
        queryAdvisories c owner repo version =
          Except.map vulnsToResults (c.ghaAdvisories owner repo version)) := by
  refine ⟨⟨rfl, rfl, rfl, rfl⟩, ?_, ?_, ?_⟩
  · intro s
    simp only [severityFromStr]
    split_ifs <;> simp_all
  · intro vulns
    induction vulns with
    | nil => rfl
    | cons v rest ih => simp [vulnsToResults, ih]
  · intro c owner repo version
    unfold queryAdvisories Except.map
    rcases c.ghaAdvisories owner repo version with e | vulns <;> rfl

/-- C4: a uses reference with no git ref yields an empty result and issues
no remote call at all. -/
theorem c4_no_ref_no_call (c : Client) (u : Uses) (h : u.git_ref = none) :
    actionKnownVulnerabilities c u = (Except.ok [], []) := by
  obtain ⟨o, re, g⟩ := u
  simp only at h
  subst h
  rfl

/-- C4 witness: the reference actions/checkout with no ref resolves to an
empty result with an empty call log. -/
theorem c4_witness :
    actionKnownVulnerabilities clientC1 usesNoRef = (Except.ok [], []) :=
  c4_no_ref_no_call clientC1 usesNoRef rfl

/-- C5: a uses reference pinned to an exact commit identifier for which
the tag lookup finds no tag yields an empty result without fault, with
the tag lookup as the only remote call and no advisory query. -/
theorem c5_sha_no_tag_empty (c : Client) (u : Uses) (r : String)
    (h1 : u.git_ref = some r) (h2 : refIsCommit u = true)
    (h3 : c.longestTagForCommit u.owner u.repo r = Except.ok none) :
    actionKnownVulnerabilities c u =
      (Except.ok [], [ApiCall.longestTagForCommit u.owner u.repo r]) := by
  obtain ⟨o, re, g⟩ := u
  simp only at h1
  subst h1
  simp only [actionKnownVulnerabilities, h2, if_true]
  simp only at h3
  rw [h3]

/-- C5 witness: a 40-character hexadecimal pin with no tag pointing at it
yields an empty result after only the tag lookup. -/
theorem c5_witness :
    actionKnownVulnerabilities clientNoTags usesSha =
      (Except.ok [],
       [ApiCall.longestTagForCommit "actions" "checkout"
          "8f4b7f84864484a7bf31766abe9204da3cbe65b3"]) :=
  c5_sha_no_tag_empty clientNoTags usesSha
    "8f4b7f84864484a7bf31766abe9204da3cbe65b3" rfl rfl rfl

/-- C7: construction of the audit fails exactly when offline mode is
requested or no API token is provided. -/
theorem c7_construction_preconditions (config : AuditConfig) (mkc : String → Client) :
    resIsOk (newKVA config mkc) = (!config.offline && config.gh_token.isSome) := by
  obtain ⟨off, tok⟩ := config
  cases off <;> cases tok <;> rfl

/-- A successful fallible result is an ok value. -/
theorem resIsOk_ok {α : Type} (r : Except String α) (h : resIsOk r = true) :
    ∃ a, r = Except.ok a := by
  cases r with
  | ok a => exact ⟨a, rfl⟩
  | error e => simp [resIsOk] at h

/-- When every step before some step succeeds and that step fails, the
step loop fails with that error. -/
theorem auditSteps_error_mid (c : Client) (jobId : String) (pre : List Step) :
    ∀ (idx : Nat) (s : Step) (post : List Step) (e : String),
      stepsAllOk c jobId idx pre = true →
      (auditStep c jobId (idx + pre.length) s).1 = Except.error e →
      (auditSteps c jobId idx (pre ++ s :: post)).1 = Except.error e := by
  induction pre with
  | nil =>
    intro idx s post e _ hfail
    simp only [List.length_nil, Nat.add_zero] at hfail
    rcases hstep : auditStep c jobId idx s with ⟨res, log⟩
    rw [hstep] at hfail
    simp only at hfail
    subst hfail
    simp [auditSteps, hstep]
  | cons p pre ih =>
    intro idx s post e hok hfail
    simp only [stepsAllOk, Bool.and_eq_true] at hok
    obtain ⟨h1, h2⟩ := hok
    obtain ⟨fs, hfs⟩ := resIsOk_ok _ h1
    rcases hstep : auditStep c jobId idx p with ⟨res, log⟩
    rw [hstep] at hfs
    simp only at hfs
    subst hfs
    have hfail' : (auditStep c jobId (idx + 1 + pre.length) s).1 = Except.error e := by
      have harith : idx + 1 + pre.length = idx + (p :: pre).length := by
        simp [List.length_cons]
        omega
      rw [harith]
      exact hfail
    have hrec := ih (idx + 1) s post e h2 hfail'
    rcases hrest : auditSteps c jobId (idx + 1) (pre ++ s :: post) with ⟨res2, log2⟩
    rw [hrest] at hrec
    simp only at hrec
    subst hrec
    simp [auditSteps, hstep, hrest]

/-- When every earlier job succeeds and a normal job's step loop fails,
the job loop fails with that error. -/
theorem auditJobs_error_mid (c : Client) (jpre : List Job) :
    ∀ (j : Job) (jpost : List Job) (e : String),
      jobsAllOk c jpre = true →
      j.kind = JobKind.normal →
      (auditSteps c j.id 0 j.steps).1 = Except.error e →
      (auditJobs c (jpre ++ j :: jpost)).1 = Except.error e := by
  induction jpre with
  | nil =>
    intro j jpost e _ hkind hfail
    rcases hst : auditSteps c j.id 0 j.steps with ⟨res, log⟩
    rw [hst] at hfail
    simp only at hfail
    subst hfail
    simp [auditJobs, hkind, hst]
  | cons jp rest ih =>
    intro j jpost e hok hkind hfail
    simp only [jobsAllOk, List.all_cons, Bool.and_eq_true] at hok
    obtain ⟨h1, h2⟩ := hok
    have hrec := ih j jpost e h2 hkind hfail
    rcases hk : jp.kind with _ | _
    · unfold jobOk at h1
      rw [hk] at h1
      simp only at h1
      obtain ⟨fs, hfs⟩ := resIsOk_ok _ h1
      rcases hst : auditSteps c jp.id 0 jp.steps with ⟨res, log⟩
      rw [hst] at hfs
      simp only at hfs
      subst hfs
      rcases hrest : auditJobs c (rest ++ j :: jpost) with ⟨res2, log2⟩
      rw [hrest] at hrec
      simp only at hrec
      subst hrec
      simp [auditJobs, hk, hst, hrest]
    · simp [auditJobs, hk]
      rcases hrest : auditJobs c (rest ++ j :: jpost) with ⟨res2, log2⟩
      rw [hrest] at hrec
      simp only at hrec
      subst hrec
      simp [hrest]

/-- C6: when every step audited before some step of a normal job succeeds
and that step's remote lookup fails with a transport error, the whole
audit pass returns exactly that error; no partial finding list survives,
because the single returned value is the error itself. -/
theorem c6_api_failure_aborts (c : Client) (wf : Workflow) (jpre jpost : List Job)
    (j : Job) (pre post : List Step) (s : Step) (e : String)
    (hjobs : wf.jobs = jpre ++ j :: jpost)
    (hkind : j.kind = JobKind.normal)
    (hsteps : j.steps = pre ++ s :: post)
    (hpj : jobsAllOk c jpre = true)
    (hps : stepsAllOk c j.id 0 pre = true)
    (hfail : (auditStep c j.id pre.length s).1 = Except.error e) :
    (audit c wf).1 = Except.error e := by
  unfold audit
  rw [hjobs]
  apply auditJobs_error_mid c jpre j jpost e hpj hkind
  rw [hsteps]
  apply auditSteps_error_mid c j.id pre 0 s post e hps
  simpa using hfail

/-- C6 witness: in a job whose first step produces a finding and whose
second step's advisory query fails, the audit returns the transport
error and the first step's finding is discarded. -/
theorem c6_witness :
    (audit clientC6 wfC6).1 = Except.error "transport failure"
      ∧ (auditStep clientC6 "test" 0 stepGood).1 =
          Except.ok [{ ident := "known-vulnerable-actions"
                       confidence := Confidence.High
                       severity := Severity.High
                       locations := [{ job := some { id := "test", step := some { index := 0 } }
                                       keys := ["uses"]
                                       annot := some "GHSA-good" }] }] := by
  constructor
  · exact c6_api_failure_aborts clientC6 wfC6 [] [] jobC6 [stepGood] [] stepBad
      "transport failure" rfl rfl rfl rfl (by rfl) rfl
  · rfl

/-- A span inside the bounds of the raw text decomposes it into the text
before the span, the extracted slice, and the text after the span. -/
theorem raw_decompose (raw : List Char) (s e : Nat) (h1 : s ≤ e) (_h2 : e ≤ raw.length) :
    raw = raw.take s ++ ((raw.drop s).take (e - s)) ++ raw.drop e := by
  have hdrop : raw.drop e = (raw.drop s).drop (e - s) := by
    rw [List.drop_drop]
    congr 1
    omega
  rw [hdrop, List.append_assoc, List.take_append_drop, List.take_append_drop]

/-- C8: the step case of concretization takes the captured steps sequence
node, lists its direct children with no filtering in document order, and
returns the child at the step index together with its literal source
text, which is the contiguous slice of the raw document covered by the
node's span. -/
theorem c8_step_concretize (wf : Workflow) (jobId : String) (i a b : Nat)
    (items rest : List STNode) (stepNode : STNode)
    (ks : List String) (an : Option String)
    (hq : stepsQueryCaptures wf.raw wf.tree jobId = STNode.sequence a b items :: rest)
    (hi : items.get? i = some stepNode)
    (h1 : nodeStart stepNode ≤ nodeStop stepNode)
    (h2 : nodeStop stepNode ≤ wf.raw.length) :
    concretize wf { job := some { id := jobId, step := some { index := i } }
                    keys := ks, annot := an } =
      LOutcome.ok { start := nodeStart stepNode
                    stop := nodeStop stepNode
                    feature := utf8Text wf.raw stepNode }
    ∧ wf.raw = wf.raw.take (nodeStart stepNode) ++ utf8Text wf.raw stepNode
        ++ wf.raw.drop (nodeStop stepNode) := by
  constructor
  · have hi' : items[i]? = some stepNode := by
      rw [← List.get?_eq_getElem?]
      exact hi
    simp [concretize, hq, STNode.children, hi']
  · exact raw_decompose wf.raw (nodeStart stepNode) (nodeStop stepNode) h1 h2

/-- C8 witness: in a workflow whose job build has three steps, the
location at step index 2 concretizes to the third step node's literal
text, a contiguous slice of the raw document. -/
theorem c8_witness :
    concretize wf8 { job := some { id := "build", step := some { index := 2 } }
                     keys := [], annot := none } =
      LOutcome.ok { start := 43, stop := 49, feature := "- e: f".toList }
    ∧ wf8.raw = wf8.raw.take 43 ++ "- e: f".toList ++ wf8.raw.drop 49 := by
  have h := c8_step_concretize wf8 "build" 2 25 49
    [STNode.scalar 25 31, STNode.scalar 34 40, STNode.scalar 43 49] []
    (STNode.scalar 43 49) [] none rfl rfl (by decide) (by decide)
  exact ⟨h.1, h.2⟩

/-- C9 counterexample: a jobs mapping with two jobs sharing the id build
makes both pattern queries match twice, yet concretization does not
fault: it silently uses the first match, for the step case and for the
job-only case alike. -/
theorem c9_counterexample :
    (stepsQueryCaptures wf9.raw wf9.tree "build").length = 2
    ∧ (entireJobCaptures wf9.raw wf9.tree "build").length = 2
    ∧ concretize wf9 { job := some { id := "build", step := some { index := 0 } }
                       keys := [], annot := none } =
        LOutcome.ok { start := 25, stop := 31, feature := "- a: b".toList }
    ∧ concretize wf9 { job := some { id := "build", step := none }
                       keys := [], annot := none } =
        LOutcome.ok { start := 7, stop := 31
                      feature := "build:\n  steps:\n  - a: b".toList } := by
  exact ⟨rfl, rfl, rfl, rfl⟩

/-- C9 amended: a query with zero matches is an unrecoverable fault, for
the job-plus-step case and the job-only case alike; a query with more
than one match is not a fault: concretization silently uses the first
captured node and ignores the rest. -/
theorem c9_amended_query_match_behavior (wf : Workflow) (jA jB jC : String)
    (i iC : Nat) (c1 : STNode) (rest : List STNode)
    (hA : stepsQueryCaptures wf.raw wf.tree jA = [])
    (hB : entireJobCaptures wf.raw wf.tree jB = [])
    (hC : stepsQueryCaptures wf.raw wf.tree jC = c1 :: rest) :
    concretize wf { job := some { id := jA, step := some { index := i } }
                    keys := [], annot := none } =
      LOutcome.fault "horrific, embarassing tree-sitter query failure"
    ∧ concretize wf { job := some { id := jB, step := none }, keys := [], annot := none } =
      LOutcome.fault "horrific, embarassing tree-sitter query failure"
    ∧ concretize wf { job := some { id := jC, step := some { index := iC } }
                      keys := [], annot := none } =
      (match (STNode.children c1).get? iC with
       | none => LOutcome.fault "index out of bounds"
       | some stepNode =>
         LOutcome.ok { start := nodeStart stepNode
                       stop := nodeStop stepNode
                       feature := utf8Text wf.raw stepNode }) := by
  refine ⟨by simp [concretize, hA], by simp [concretize, hB], by simp [concretize, hC]⟩

/-- C9 amended witness: in the duplicate-job workflow, a job id that
matches nothing faults in both cases, while the duplicated id build
concretizes through the first of its two captures. -/
theorem c9_witness :
    concretize wf9 { job := some { id := "nope", step := some { index := 0 } }
                     keys := [], annot := none } =
      LOutcome.fault "horrific, embarassing tree-sitter query failure"
    ∧ concretize wf9 { job := some { id := "nope", step := none }, keys := [], annot := none } =
      LOutcome.fault "horrific, embarassing tree-sitter query failure"
    ∧ concretize wf9 { job := some { id := "build", step := some { index := 0 } }
                       keys := [], annot := none } =
      LOutcome.ok { start := 25, stop := 31, feature := "- a: b".toList } := by
  have h := c9_amended_query_match_behavior wf9 "nope" "nope" "build" 0 0
    (STNode.sequence 25 31 [STNode.scalar 25 31])
    [STNode.sequence 51 57 [STNode.scalar 51 57]] rfl rfl rfl
  exact ⟨h.1, h.2.1, h.2.2⟩

/-- C10: a step index at or beyond the number of direct children of the
captured steps sequence node makes concretization fault with an
out-of-bounds crash rather than return an error or an empty result. -/
theorem c10_oob_index_faults (wf : Workflow) (jobId : String) (i : Nat)
    (c1 : STNode) (rest : List STNode) (ks : List String) (an : Option String)
    (hq : stepsQueryCaptures wf.raw wf.tree jobId = c1 :: rest)
    (hlen : (STNode.children c1).length ≤ i) :
    concretize wf { job := some { id := jobId, step := some { index := i } }
                    keys := ks, annot := an } =
      LOutcome.fault "index out of bounds" := by
  have hnone : (STNode.children c1)[i]? = none := by
    rw [← List.get?_eq_getElem?, List.get?_eq_none]
    exact hlen
  simp [concretize, hq, hnone]

/-- C10 witness: indexing step 3 of a job with three steps faults. -/
theorem c10_witness :
    concretize wf8 { job := some { id := "build", step := some { index := 3 } }
                     keys := [], annot := none } =
      LOutcome.fault "index out of bounds" :=
  c10_oob_index_faults wf8 "build" 3
    (STNode.sequence 25 49 [STNode.scalar 25 31, STNode.scalar 34 40, STNode.scalar 43 49])
    [] [] none rfl (by decide)
